import Mathlib

/-!
Formal model of the Real-time AI Object Tracking web application.

The definitions below are shallow embeddings of the functions in
`src/App.tsx`, `src/unnamed/part_000`, `src/hooks.tsx` and `src/atoms.tsx`.
JavaScript numbers are modelled as rationals (`ℚ`); the square root in the
Euclidean distance of `drawFaceDetections` is handled by comparing squared
distances, with a bridging lemma (`sqrt_lt_bound_iff`) justifying the
encoding against `Real.sqrt`.  Strings are Lean `String`s; the JS
`String.prototype.includes` test is `jsIncludes` (substring containment),
and `toLowerCase`/`trim` are modelled on the ASCII fragment by `jsToLower`
and `jsTrim` (structural recursions over the character list, so that all
definitions evaluate inside the kernel).
-/

attribute [local semireducible] Rat.add Rat.sub Rat.mul Rat.inv Rat.ofScientific

/-- MediaPipe bounding box: `{originX, originY, width, height}`. -/
structure BBox where
  originX : ℚ
  originY : ℚ
  width : ℚ
  height : ℚ
deriving DecidableEq

/-- MediaPipe category: `{categoryName, score}`. -/
structure Category where
  categoryName : String
  score : ℚ
deriving DecidableEq

/-- MediaPipe detection: an optional bounding box plus a list of categories. -/
structure Detection where
  boundingBox : Option BBox
  categories : List Category
deriving DecidableEq

/-- One entry of `personAnalysisResults` in `App.tsx`: `{bbox, text}`. -/
structure AnalysisResult where
  bbox : BBox
  text : String
deriving DecidableEq

/-- Helper for `jsIncludes`: does `sub` occur at the very front of `s`? -/
def startsWith : List Char → List Char → Bool
  | _, [] => true
  | [], _ :: _ => false
  | c :: cs, d :: ds => c = d && startsWith cs ds

/-- Contiguous-substring test on character lists. -/
def containsSeq : List Char → List Char → Bool
  | [], sub => sub.isEmpty
  | c :: cs, sub => startsWith (c :: cs) sub || containsSeq cs sub

/-- JavaScript `s.includes(sub)`: `sub` is a contiguous substring of `s`. -/
def jsIncludes (s sub : String) : Bool :=
  containsSeq s.toList sub.toList

/-- JavaScript `s.toLowerCase()` on the ASCII fragment: map `Char.toLower`
over the characters. -/
def jsToLower (s : String) : String :=
  String.mk (s.toList.map Char.toLower)

/-- The whitespace characters recognised by `trim` and by the `\s` class of
the split regex (ASCII fragment: space, tab, line feed, vertical tab, form
feed, carriage return). -/
def isJsSpace (c : Char) : Bool :=
  c = ' ' || c = '\t' || c = '\n' || c = '\x0b' || c = '\x0c' || c = '\r'

/-- JavaScript `s.trim()`: drop whitespace from both ends. -/
def jsTrim (s : String) : String :=
  String.mk ((((s.toList.dropWhile isJsSpace).reverse.dropWhile isJsSpace).reverse))

/-- `inputPrompt.toLowerCase().trim()`, the processed prompt of
`handlePromptSubmit`. -/
def jsLowerTrim (s : String) : String :=
  jsTrim (jsToLower s)

/-- The four vision tasks of `src/unnamed/part_000` (`type VisionTask`). -/
inductive VisionTask
  | object
  | face
  | hands
  | pose
deriving DecidableEq

/-- The two reactive cells of `part_000` that `handlePromptSubmit` routes to:
`activeTask` and `detectionTarget`. -/
structure RouterState where
  activeTask : VisionTask
  detectionTarget : String
deriving DecidableEq

/-- `faceKeywords` from `handlePromptSubmit` in `src/unnamed/part_000`. -/
def faceKeywords : List String := ["face", "head", "selfie", "visage"]

/-- `handKeywords` from `handlePromptSubmit` in `src/unnamed/part_000`. -/
def handKeywords : List String := ["hand", "hands", "finger", "fingers", "palm", "wave"]

/-- `poseKeywords` from `handlePromptSubmit` in `src/unnamed/part_000`. -/
def poseKeywords : List String := ["pose", "body", "stand", "dance", "jump", "posture"]

/-- `handlePromptSubmit` of `src/unnamed/part_000` (lines 337-381), restricted
to the two cells it routes to.  `if (!inputPrompt) return` is the empty-string
test (the only falsy string); the prompt is lower-cased then trimmed, the
three keyword lists are tested in order by `includes`, and on no match the
task defaults to `object` with the processed prompt as target.  `setActiveTask`
runs only when the routed task differs from the current one (the resulting
value is the same either way). -/
def handlePromptSubmit (inputPrompt : String) (s : RouterState) : RouterState :=
  if inputPrompt = "" then s
  else
    let lowerCasePrompt := jsLowerTrim inputPrompt
    let routed : VisionTask × String :=
      if faceKeywords.any (fun k => jsIncludes lowerCasePrompt k) then
        (VisionTask.face, "")
      else if handKeywords.any (fun k => jsIncludes lowerCasePrompt k) then
        (VisionTask.hands, "")
      else if poseKeywords.any (fun k => jsIncludes lowerCasePrompt k) then
        (VisionTask.pose, "")
      else
        (VisionTask.object, lowerCasePrompt)
    let s1 := { s with detectionTarget := routed.2 }
    if routed.1 ≠ s1.activeTask then { s1 with activeTask := routed.1 } else s1

/-- C4: for every submitted prompt whose lower-cased, trimmed form contains a
face keyword, the router selects the face task (independently of the original
casing/whitespace, and independently of any hand or pose keywords also
present, since the face list is tested first) and clears the detection-target
filter. -/
theorem C4_face_routing (p : String) (s : RouterState)
    (h : ∃ k ∈ faceKeywords, jsIncludes (jsLowerTrim p) k = true) :
    (handlePromptSubmit p s).activeTask = VisionTask.face ∧
      (handlePromptSubmit p s).detectionTarget = "" := by
  have hne : p ≠ "" := by
    rintro rfl
    obtain ⟨k, hk, hkk⟩ := h
    fin_cases hk <;> simp [jsIncludes, containsSeq, jsLowerTrim, jsTrim, jsToLower] at hkk
  unfold handlePromptSubmit
  rw [if_neg hne]
  have hany : faceKeywords.any (fun k => jsIncludes (jsLowerTrim p) k) = true := by
    rw [List.any_eq_true]
    obtain ⟨k, hk, hkk⟩ := h
    exact ⟨k, hk, hkk⟩
  simp only [hany, if_true]
  rcases eq_or_ne VisionTask.face s.activeTask with htask | htask
  · rw [if_neg (by simp [htask.symm])]
    exact ⟨htask.symm, rfl⟩
  · rw [if_pos (by simpa using htask)]
    exact ⟨rfl, rfl⟩

/-- Witness for C4 at the concrete prompt `" Show my FACE please "`. -/
theorem C4_face_routing_w :
    (handlePromptSubmit " Show my FACE please "
        ⟨VisionTask.object, "person"⟩).activeTask = VisionTask.face ∧
      (handlePromptSubmit " Show my FACE please "
        ⟨VisionTask.object, "person"⟩).detectionTarget = "" :=
  C4_face_routing " Show my FACE please " ⟨VisionTask.object, "person"⟩
    ⟨"face", by decide, by decide⟩

/-- C5 counterexample: the empty prompt contains no recognized keyword, yet
submitting it does not route to the object task with an empty filter — the
handler returns early (`if (!inputPrompt) return`) and the previous
detection target `"person"` survives unchanged. -/
theorem C5_cex :
    (∀ k ∈ faceKeywords ++ handKeywords ++ poseKeywords,
        jsIncludes (jsLowerTrim "") k = false) ∧
      (handlePromptSubmit "" ⟨VisionTask.object, "person"⟩).detectionTarget
        = "person" ∧
      ("person" : String) ≠ jsLowerTrim "" := by
  decide

/-- C5 (amended): every nonempty submitted prompt containing no recognized
keyword routes to the object task with the trimmed, lower-cased prompt as the
category filter (so a whitespace-only prompt degenerates to an empty
detect-everything filter), while the empty prompt is ignored: the submission
is a no-op, raising no error and leaving the state unchanged. -/
theorem C5_object_routing (p : String) (s : RouterState) (hne : p ≠ "")
    (h : ∀ k ∈ faceKeywords ++ handKeywords ++ poseKeywords,
        jsIncludes (jsLowerTrim p) k = false) :
    (handlePromptSubmit p s).activeTask = VisionTask.object ∧
      (handlePromptSubmit p s).detectionTarget = jsLowerTrim p ∧
      handlePromptSubmit "" s = s := by
  have hface : faceKeywords.any (fun k => jsIncludes (jsLowerTrim p) k) = false := by
    rw [List.any_eq_false]
    intro k hk
    simpa using h k (by simp [hk])
  have hhand : handKeywords.any (fun k => jsIncludes (jsLowerTrim p) k) = false := by
    rw [List.any_eq_false]
    intro k hk
    simpa using h k (by simp [hk])
  have hpose : poseKeywords.any (fun k => jsIncludes (jsLowerTrim p) k) = false := by
    rw [List.any_eq_false]
    intro k hk
    simpa using h k (by simp [hk])
  have hmain : handlePromptSubmit p s = ⟨VisionTask.object, jsLowerTrim p⟩ := by
    unfold handlePromptSubmit
    rw [if_neg hne]
    simp only [hface, hhand, hpose, Bool.false_eq_true, if_false]
    rcases eq_or_ne VisionTask.object s.activeTask with htask | htask
    · rw [if_neg (by simp [htask.symm])]
      obtain ⟨a, t⟩ := s
      simp_all
    · rw [if_pos (by simpa using htask)]
  exact ⟨by rw [hmain], by rw [hmain], by simp [handlePromptSubmit]⟩

/-- Witness for C5 (amended) at the whitespace-only prompt `" "`: it routes
to object detection with the empty filter. -/
theorem C5_object_routing_w :
    (handlePromptSubmit " " ⟨VisionTask.face, "x"⟩).activeTask = VisionTask.object ∧
      (handlePromptSubmit " " ⟨VisionTask.face, "x"⟩).detectionTarget
        = jsLowerTrim " " ∧
      handlePromptSubmit "" ⟨VisionTask.face, "x"⟩ = ⟨VisionTask.face, "x"⟩ :=
  C5_object_routing " " ⟨VisionTask.face, "x"⟩ (by decide) (by decide)

/-- The two detection modes of `src/App.tsx` (`type DetectionMode`). -/
inductive DetectionMode
  | object
  | personAnalysis
deriving DecidableEq

/-- The mutable state read and written by one iteration of `renderLoop` in
`predict` (`src/App.tsx` lines 245-281): the module-level `lastVideoTime`,
the ref `lastAnalysisTime`, plus two ghost counters recording how many times
`detectForVideo` was invoked and how many analysis batches were dispatched. -/
structure PredictState where
  lastVideoTime : ℚ
  lastAnalysisTime : ℚ
  detectCalls : Nat
  analysisDispatches : Nat
deriving DecidableEq

/-- One `renderLoop` callback body from `predict` in `src/App.tsx`:
if `video.currentTime` differs from `lastVideoTime`, record the new time,
invoke `detectForVideo` on the detector of the current mode when that
detector is loaded (`objP`/`faceP` model whether `objectDetector.current` /
`faceDetector.current` are non-null), and, in person-analysis mode with a
nonempty detection list, dispatch `analyzeAllFaces` when more than 3000 ms
have passed since `lastAnalysisTime`.  If the timestamp is unchanged the
body does nothing. -/
def renderLoopStep (detectionMode : DetectionMode) (objP faceP : Bool)
    (currentTime nowMs : ℚ) (hasDetections : Bool) (s : PredictState) :
    PredictState :=
  if currentTime ≠ s.lastVideoTime then
    let s1 := { s with lastVideoTime := currentTime }
    let s2 :=
      if detectionMode = DetectionMode.object ∧ objP = true then
        { s1 with detectCalls := s1.detectCalls + 1 }
      else if detectionMode = DetectionMode.personAnalysis ∧ faceP = true then
        { s1 with detectCalls := s1.detectCalls + 1 }
      else s1
    if detectionMode = DetectionMode.personAnalysis ∧ faceP = true ∧
        hasDetections = true ∧ nowMs - s2.lastAnalysisTime > 3000 then
      { s2 with lastAnalysisTime := nowMs, analysisDispatches := s2.analysisDispatches + 1 }
    else s2
  else s

/-- After any callback at timestamp `t`, `lastVideoTime` equals `t`. -/
theorem renderLoopStep_lastVideoTime (m : DetectionMode) (o f : Bool)
    (t now : ℚ) (hd : Bool) (s : PredictState) :
    (renderLoopStep m o f t now hd s).lastVideoTime = t := by
  by_cases h : t ≠ s.lastVideoTime
  · simp only [renderLoopStep, if_pos h]
    split_ifs <;> rfl
  · push_neg at h
    unfold renderLoopStep
    rw [if_neg (by simpa using h)]
    exact h.symm

/-- C6: if the video's reported timestamp `t` is unchanged between two
consecutive scheduled callbacks, the second callback is a no-op — in
particular `detectForVideo` is not invoked again (`detectCalls` is
unchanged), whatever the mode, loaded detectors, wall-clock time or
detection results of either callback. -/
theorem C6_frame_dedup (m1 m2 : DetectionMode) (o1 f1 o2 f2 : Bool)
    (t now1 now2 : ℚ) (hd1 hd2 : Bool) (s : PredictState) :
    renderLoopStep m2 o2 f2 t now2 hd2 (renderLoopStep m1 o1 f1 t now1 hd1 s)
        = renderLoopStep m1 o1 f1 t now1 hd1 s ∧
      (renderLoopStep m2 o2 f2 t now2 hd2
          (renderLoopStep m1 o1 f1 t now1 hd1 s)).detectCalls
        = (renderLoopStep m1 o1 f1 t now1 hd1 s).detectCalls := by
  have hsame : renderLoopStep m2 o2 f2 t now2 hd2 (renderLoopStep m1 o1 f1 t now1 hd1 s)
      = renderLoopStep m1 o1 f1 t now1 hd1 s := by
    conv_lhs => rw [renderLoopStep]
    rw [if_neg (by simp [renderLoopStep_lastVideoTime])]
  exact ⟨hsame, by rw [hsame]⟩

/-- One splitting step of `detectionTarget.split(/[\s,]+|and/i)` on an
already lower-cased character list: a whitespace character or a comma ends
the current token, as does an occurrence of the substring `"and"`
(checked case-insensitively, as the `i` flag does).  A run of separator
characters produces intermediate empty tokens, exactly the empty strings
that `filter(Boolean)` removes afterwards.  Recursion is on a fuel counter
(every step consumes at least one character, so `length` fuel is enough,
and the zero-fuel fallback is never reached). -/
def splitRegexGo : Nat → List Char → List Char → List (List Char)
  | 0, s, acc => [acc.reverse ++ s]
  | _ + 1, [], acc => [acc.reverse]
  | fuel + 1, c :: rest, acc =>
    if isJsSpace c || c = ',' then
      acc.reverse :: splitRegexGo fuel rest []
    else
      match rest with
      | n :: d :: rest2 =>
        if c.toLower = 'a' && n.toLower = 'n' && d.toLower = 'd' then
          acc.reverse :: splitRegexGo fuel rest2 []
        else
          splitRegexGo fuel (n :: d :: rest2) (c :: acc)
      | _ => splitRegexGo fuel rest (c :: acc)

/-- `detectionTarget.toLowerCase().trim().split(/[\s,]+|and/i).filter(Boolean)`
from `drawObjectDetections` in `src/App.tsx` (lines 303-307). -/
def splitTargets (detectionTarget : String) : List String :=
  (splitRegexGo (jsLowerTrim detectionTarget).toList.length
      (jsLowerTrim detectionTarget).toList []).filterMap
    (fun cs => if cs = [] then none else some (String.mk cs))

/-- JavaScript `Math.round` on a rational: floor of `q + 1/2`. -/
def jsRound (q : ℚ) : ℤ := ⌊q + 1 / 2⌋

/-- A canvas drawing command issued by the renderers: a stroked rectangle
(`ctx.strokeRect`) or a text label (`drawLabel`), each at mirrored
coordinates. -/
inductive DrawCmd
  | strokeRect (x y w h : ℚ)
  | label (text : String) (x y : ℚ)
deriving DecidableEq

/-- `drawObjectDetections` of `src/App.tsx` (lines 298-330) as the list of
drawing commands it issues.  A detection with no bounding box or no category
is skipped; when the token list is nonempty, a detection whose lower-cased
primary category name contains no token is skipped; otherwise the rectangle
is stroked at the mirrored x `width - originX - boxWidth` and labelled with
`"<category> (<round(score*100)>%)"`. -/
def drawObjectDetections (detectionTarget : String) (detections : List Detection)
    (width : ℚ) : List DrawCmd :=
  let targets := splitTargets detectionTarget
  detections.flatMap (fun detection =>
    match detection.boundingBox, detection.categories with
    | some bbox, c0 :: _ =>
      let category := jsToLower c0.categoryName
      if 0 < targets.length ∧ targets.any (fun t => jsIncludes category t) = false then
        []
      else
        let mirroredX := width - bbox.originX - bbox.width
        [DrawCmd.strokeRect mirroredX bbox.originY bbox.width bbox.height,
          DrawCmd.label
            (category ++ " (" ++ toString (jsRound (c0.score * 100)) ++ "%)")
            mirroredX bbox.originY]
    | _, _ => [])

/-- C9: every stroked rectangle issued by the object renderer comes from a
detection whose bounding box it mirrors horizontally: its x coordinate is
`canvasWidth - originX - boxWidth` and the other three components are taken
verbatim; and concretely, a detection box `(10, 10, 100, 50)` on a 640-wide
canvas is stroked at mirrored x `640 - 10 - 100 = 530`. -/
theorem C9_mirrored_x :
    (∀ (t : String) (ds : List Detection) (w x y rw rh : ℚ),
        DrawCmd.strokeRect x y rw rh ∈ drawObjectDetections t ds w →
        ∃ d ∈ ds, ∃ b, d.boundingBox = some b ∧
          x = w - b.originX - b.width ∧ y = b.originY ∧
          rw = b.width ∧ rh = b.height) ∧
      DrawCmd.strokeRect 530 10 100 50 ∈
        drawObjectDetections ""
          [⟨some ⟨10, 10, 100, 50⟩, [⟨"cup", 9 / 10⟩]⟩] 640 := by
  constructor
  · intro t ds w x y rw rh hmem
    unfold drawObjectDetections at hmem
    rw [List.mem_flatMap] at hmem
    obtain ⟨d, hd, hcmd⟩ := hmem
    refine ⟨d, hd, ?_⟩
    rcases hbb : d.boundingBox with _ | b <;>
      rcases hcat : d.categories with _ | ⟨c0, cs⟩ <;>
      simp only [hbb, hcat] at hcmd
    · simp at hcmd
    · simp at hcmd
    · simp at hcmd
    · split at hcmd
      · simp at hcmd
      · simp only [List.mem_cons, List.not_mem_nil, or_false] at hcmd
        rcases hcmd with hcmd | hcmd
        · obtain ⟨hx, hy, hw, hh⟩ := DrawCmd.strokeRect.injEq .. ▸ hcmd
          exact ⟨b, rfl, hx, hy, hw, hh⟩
        · exact absurd hcmd (by simp)
  · decide

/-- Witness for the universal part of C9, applied at the concrete 640-wide
canvas example. -/
theorem C9_mirrored_x_w :
    ∃ d ∈ [(⟨some ⟨10, 10, 100, 50⟩, [⟨"cup", 9 / 10⟩]⟩ : Detection)],
      ∃ b, d.boundingBox = some b ∧
        (530 : ℚ) = 640 - b.originX - b.width ∧ (10 : ℚ) = b.originY ∧
        (100 : ℚ) = b.width ∧ (50 : ℚ) = b.height :=
  C9_mirrored_x.1 "" [⟨some ⟨10, 10, 100, 50⟩, [⟨"cup", 9 / 10⟩]⟩] 640
    530 10 100 50 C9_mirrored_x.2

/-- Tokenizer as claim C10 words it (for comparison with the code only):
split on whitespace and commas, drop empty tokens and drop tokens equal to
the standalone word "and".  The code's regex `/[\s,]+|and/i` instead splits
on every occurrence of the substring `"and"`. -/
def claimWordSplitGo : List Char → List Char → List (List Char)
  | [], acc => [acc.reverse]
  | c :: rest, acc =>
    if isJsSpace c || c = ',' then
      acc.reverse :: claimWordSplitGo rest []
    else
      claimWordSplitGo rest (c :: acc)

/-- The claim-side token list for a detection target (word-level split). -/
def claimSplitTargets (detectionTarget : String) : List String :=
  (claimWordSplitGo (jsLowerTrim detectionTarget).toList []).filterMap
    (fun cs =>
      if cs = [] || cs = ['a', 'n', 'd'] then none else some (String.mk cs))

/-- The per-detection draw decision as claim C10 words it: a detection is
drawn iff it has a bounding box and at least one category and either the
word-level token list is empty or some token is a substring of the
lower-cased primary category name. -/
def claimDrawsDetection (detectionTarget : String) (d : Detection) : Bool :=
  match d.boundingBox, d.categories with
  | some _, c0 :: _ =>
    let targets := claimSplitTargets detectionTarget
    targets.isEmpty || targets.any (fun tok => jsIncludes (jsToLower c0.categoryName) tok)
  | _, _ => false

/-- C10 counterexample: for the target `"sandwich"` the code's regex split
produces the tokens `"s"` and `"wich"` (the substring `"and"` inside
`"sandwich"` acts as a separator), so a detection labelled `"salt"` is drawn
by the code, while under the claim's word-level reading (single token
`"sandwich"`) it would not be drawn. -/
theorem C10_cex :
    splitTargets "sandwich" = ["s", "wich"] ∧
      claimSplitTargets "sandwich" = ["sandwich"] ∧
      drawObjectDetections "sandwich"
          [⟨some ⟨0, 0, 10, 10⟩, [⟨"salt", 1 / 2⟩]⟩] 100 ≠ [] ∧
      claimDrawsDetection "sandwich" ⟨some ⟨0, 0, 10, 10⟩, [⟨"salt", 1 / 2⟩]⟩
        = false := by
  decide

/-- C10 (amended): the object renderer splits the detection target on runs
of whitespace or commas and on every occurrence of the substring "and"
(case-insensitively, empty tokens dropped) — so `"sandwich"` yields the
tokens `"s"` and `"wich"` — and a detection is drawn iff it has a bounding
box and at least one category and either the token list is empty or some
token is a substring of the lower-cased primary category name (a
multi-target OR filter). -/
theorem C10_target_filter (t : String) (d : Detection) (w : ℚ) :
    drawObjectDetections t [d] w ≠ [] ↔
      ∃ b c0 rest, d.boundingBox = some b ∧ d.categories = c0 :: rest ∧
        (splitTargets t = [] ∨
          ∃ tok ∈ splitTargets t, jsIncludes (jsToLower c0.categoryName) tok = true) := by
  unfold drawObjectDetections
  rcases hbb : d.boundingBox with _ | b <;>
    rcases hcat : d.categories with _ | ⟨c0, cs⟩ <;>
    simp only [List.flatMap_cons, List.flatMap_nil, List.append_nil, hbb, hcat]
  · simp
  · simp
  · simp
  · constructor
    · intro hne
      refine ⟨b, c0, cs, rfl, rfl, ?_⟩
      by_cases hempty : splitTargets t = []
      · exact Or.inl hempty
      · refine Or.inr ?_
        rcases hany : (splitTargets t).any
            (fun tok => jsIncludes (jsToLower c0.categoryName) tok) with _ | _
        · exfalso
          apply hne
          rw [if_pos]
          exact ⟨List.length_pos.mpr hempty, hany⟩
        · obtain ⟨tok, htok, hinc⟩ := List.any_eq_true.mp hany
          exact ⟨tok, htok, hinc⟩
    · rintro ⟨b', c0', cs', hb', hcat', hdisj⟩
      obtain rfl := Option.some.inj hb'
      obtain ⟨rfl, rfl⟩ := List.cons.inj hcat'
      rw [if_neg]
      · simp
      · rintro ⟨hlen, hany⟩
        rcases hdisj with hempty | ⟨tok, htok, hinc⟩
        · rw [hempty] at hlen
          simp at hlen
        · have := List.any_eq_false.mp hany tok htok
          rw [hinc] at this
          simp at this

/-- Witness for C10 (amended): a detection labelled `"teacup"` is drawn for
the target `"cup, bowl"`. -/
theorem C10_target_filter_w :
    drawObjectDetections "cup, bowl"
        [⟨some ⟨0, 0, 10, 10⟩, [⟨"teacup", 1 / 2⟩]⟩] 100 ≠ [] :=
  (C10_target_filter "cup, bowl" ⟨some ⟨0, 0, 10, 10⟩, [⟨"teacup", 1 / 2⟩]⟩ 100).mpr
    ⟨⟨0, 0, 10, 10⟩, ⟨"teacup", 1 / 2⟩, [], rfl, rfl,
      Or.inr ⟨"cup", by decide, by decide⟩⟩

/-- Center of a bounding box, as computed in `drawFaceDetections`:
`(originX + width / 2, originY + height / 2)`. -/
def bboxCenter (b : BBox) : ℚ × ℚ :=
  (b.originX + b.width / 2, b.originY + b.height / 2)

/-- Squared Euclidean distance between two points.  The code compares
`Math.sqrt` of this quantity; since squaring is monotone on nonnegative
numbers, all comparisons are carried out on the squares (see
`sqrt_lt_bound_iff`). -/
def distSq (p q : ℚ × ℚ) : ℚ :=
  (p.1 - q.1) * (p.1 - q.1) + (p.2 - q.2) * (p.2 - q.2)

/-- The inner scan of `drawFaceDetections` (`src/App.tsx` lines 363-380):
walk the unattached detections with index `i`, skip those without a bounding
box, and keep the first candidate of strictly smallest (squared) distance.
`none` plays the role of the initial `minDistance = Infinity` /
`bestMatch = null`. -/
def scanGo (c : ℚ × ℚ) : List Detection → Nat → Option (Nat × BBox × ℚ) →
    Option (Nat × BBox × ℚ)
  | [], _, best => best
  | d :: rest, i, best =>
    match d.boundingBox with
    | none => scanGo c rest (i + 1) best
    | some b =>
      match best with
      | none => scanGo c rest (i + 1) (some (i, b, distSq c (bboxCenter b)))
      | some (j0, b0, m0) =>
        if distSq c (bboxCenter b) < m0 then
          scanGo c rest (i + 1) (some (i, b, distSq c (bboxCenter b)))
        else
          scanGo c rest (i + 1) (some (j0, b0, m0))

/-- The full best-match scan over a detection pool, started like the code
with index `0`, `bestMatch = null` and `minDistance = Infinity`. -/
def findBest (c : ℚ × ℚ) (pool : List Detection) : Option (Nat × BBox × ℚ) :=
  scanGo c pool 0 none

/-- The acceptance test of `drawFaceDetections`
(`minDistance < bestMatch.boundingBox!.width * 0.75`), stated on the squared
distance `m`: the square root of `m` is below `width * 0.75` iff that bound
is positive and `m` is below its square. -/
def accepts (b : BBox) (m : ℚ) : Bool :=
  decide (0 < b.width * 0.75 ∧ m < (b.width * 0.75) * (b.width * 0.75))

/-- One analysis result matched against a pool of unattached detections:
the body of the `for (const result of personAnalysisResults)` loop of
`drawFaceDetections`, returning the index and box of the claimed detection,
or `none` when no label is drawn for this result. -/
def matchResult (r : AnalysisResult) (pool : List Detection) : Option (Nat × BBox) :=
  match findBest (bboxCenter r.bbox) pool with
  | none => none
  | some (j, b, m) => if accepts b m then some (j, b) else none

/-- Unfolding: a detection without a bounding box is skipped by the scan. -/
theorem scanGo_cons_nobb (c : ℚ × ℚ) (d : Detection) (rest : List Detection)
    (i : Nat) (best : Option (Nat × BBox × ℚ)) (hdb : d.boundingBox = none) :
    scanGo c (d :: rest) i best = scanGo c rest (i + 1) best := by
  simp [scanGo, hdb]

/-- Unfolding: the first candidate always becomes the best match. -/
theorem scanGo_cons_first (c : ℚ × ℚ) (d : Detection) (rest : List Detection)
    (i : Nat) (b : BBox) (hdb : d.boundingBox = some b) :
    scanGo c (d :: rest) i none
      = scanGo c rest (i + 1) (some (i, b, distSq c (bboxCenter b))) := by
  simp [scanGo, hdb]

/-- Unfolding: a strictly closer candidate replaces the best match. -/
theorem scanGo_cons_lt (c : ℚ × ℚ) (d : Detection) (rest : List Detection)
    (i j0 : Nat) (b b0 : BBox) (m0 : ℚ) (hdb : d.boundingBox = some b)
    (hlt : distSq c (bboxCenter b) < m0) :
    scanGo c (d :: rest) i (some (j0, b0, m0))
      = scanGo c rest (i + 1) (some (i, b, distSq c (bboxCenter b))) := by
  simp [scanGo, hdb, hlt]

/-- Unfolding: a candidate at least as far as the best match is ignored. -/
theorem scanGo_cons_ge (c : ℚ × ℚ) (d : Detection) (rest : List Detection)
    (i j0 : Nat) (b b0 : BBox) (m0 : ℚ) (hdb : d.boundingBox = some b)
    (hge : ¬ distSq c (bboxCenter b) < m0) :
    scanGo c (d :: rest) i (some (j0, b0, m0))
      = scanGo c rest (i + 1) (some (j0, b0, m0)) := by
  simp [scanGo, hdb, hge]

/-- Full specification of the scan: provided the incoming best match carries
its own squared distance, the scan returns `none` exactly when there is no
candidate at all, and otherwise returns a candidate (either the incoming
best or one located in the list at offset `j - i`) whose squared distance is
a lower bound for the incoming best and for every candidate of the list. -/
theorem scanGo_spec (c : ℚ × ℚ) (l : List Detection) :
    ∀ (i : Nat) (best : Option (Nat × BBox × ℚ)),
      (∀ j b m, best = some (j, b, m) → m = distSq c (bboxCenter b)) →
      ((scanGo c l i best = none → best = none ∧ ∀ d ∈ l, d.boundingBox = none) ∧
        (∀ j b m, scanGo c l i best = some (j, b, m) →
          m = distSq c (bboxCenter b) ∧
          (best = some (j, b, m) ∨
            ∃ d, l.get? (j - i) = some d ∧ d.boundingBox = some b ∧ i ≤ j) ∧
          (∀ j0 b0 m0, best = some (j0, b0, m0) → m ≤ m0) ∧
          (∀ d ∈ l, ∀ b0, d.boundingBox = some b0 →
            m ≤ distSq c (bboxCenter b0)))) := by
  induction l with
  | nil =>
    intro i best hbest
    constructor
    · intro h
      exact ⟨h, by simp⟩
    · intro j b m h
      have hbm : best = some (j, b, m) := h
      refine ⟨hbest j b m hbm, Or.inl hbm, ?_, by simp⟩
      intro j0 b0 m0 h0
      rw [hbm] at h0
      simp only [Option.some.injEq, Prod.mk.injEq] at h0
      obtain ⟨-, -, rfl⟩ := h0
      exact le_refl m
  | cons d rest ih =>
    intro i best hbest
    rcases hdb : d.boundingBox with _ | b
    · rw [scanGo_cons_nobb c d rest i best hdb]
      obtain ⟨ihnone, ihsome⟩ := ih (i + 1) best hbest
      constructor
      · intro h
        obtain ⟨h1, h2⟩ := ihnone h
        refine ⟨h1, ?_⟩
        intro d' hd'
        rcases List.mem_cons.mp hd' with rfl | hd''
        · exact hdb
        · exact h2 d' hd''
      · intro j b' m h
        obtain ⟨hm, hprov, hbestmono, hcand⟩ := ihsome j b' m h
        refine ⟨hm, ?_, hbestmono, ?_⟩
        · rcases hprov with hl | ⟨d', hget, hdb', hij⟩
          · exact Or.inl hl
          · refine Or.inr ⟨d', ?_, hdb', by omega⟩
            have hidx : j - i = (j - (i + 1)) + 1 := by omega
            rw [hidx]
            simpa using hget
        · intro d' hd' b0 hb0
          rcases List.mem_cons.mp hd' with rfl | hd''
          · rw [hdb] at hb0
            cases hb0
          · exact hcand d' hd'' b0 hb0
    · cases best with
      | none =>
        rw [scanGo_cons_first c d rest i b hdb]
        have hbest' : ∀ j b' m,
            (some (i, b, distSq c (bboxCenter b)) : Option (Nat × BBox × ℚ))
              = some (j, b', m) → m = distSq c (bboxCenter b') := by
          intro j b' m h
          simp only [Option.some.injEq, Prod.mk.injEq] at h
          obtain ⟨-, rfl, rfl⟩ := h
          rfl
        obtain ⟨ihnone, ihsome⟩ := ih (i + 1) (some (i, b, distSq c (bboxCenter b))) hbest'
        constructor
        · intro h
          obtain ⟨h1, -⟩ := ihnone h
          cases h1
        · intro j b' m h
          obtain ⟨hm, hprov, hbestmono, hcand⟩ := ihsome j b' m h
          refine ⟨hm, ?_, ?_, ?_⟩
          · rcases hprov with hl | ⟨d', hget, hdb', hij⟩
            · simp only [Option.some.injEq, Prod.mk.injEq] at hl
              obtain ⟨rfl, rfl, rfl⟩ := hl
              exact Or.inr ⟨d, by simp, hdb, le_refl i⟩
            · refine Or.inr ⟨d', ?_, hdb', by omega⟩
              have hidx : j - i = (j - (i + 1)) + 1 := by omega
              rw [hidx]
              simpa using hget
          · intro j0 b0 m0 h0
            cases h0
          · intro d' hd' b0 hb0
            rcases List.mem_cons.mp hd' with rfl | hd''
            · rw [hdb] at hb0
              obtain rfl := Option.some.inj hb0
              exact hbestmono i b (distSq c (bboxCenter b)) rfl
            · exact hcand d' hd'' b0 hb0
      | some jbm =>
        obtain ⟨j0, b0, m0⟩ := jbm
        have hm0 : m0 = distSq c (bboxCenter b0) := hbest j0 b0 m0 rfl
        by_cases hlt : distSq c (bboxCenter b) < m0
        · rw [scanGo_cons_lt c d rest i j0 b b0 m0 hdb hlt]
          have hbest' : ∀ j b' m,
              (some (i, b, distSq c (bboxCenter b)) : Option (Nat × BBox × ℚ))
                = some (j, b', m) → m = distSq c (bboxCenter b') := by
            intro j b' m h
            simp only [Option.some.injEq, Prod.mk.injEq] at h
            obtain ⟨-, rfl, rfl⟩ := h
            rfl
          obtain ⟨ihnone, ihsome⟩ :=
            ih (i + 1) (some (i, b, distSq c (bboxCenter b))) hbest'
          constructor
          · intro h
            obtain ⟨h1, -⟩ := ihnone h
            cases h1
          · intro j b' m h
            obtain ⟨hm, hprov, hbestmono, hcand⟩ := ihsome j b' m h
            have hmds : m ≤ distSq c (bboxCenter b) :=
              hbestmono i b (distSq c (bboxCenter b)) rfl
            refine ⟨hm, ?_, ?_, ?_⟩
            · rcases hprov with hl | ⟨d', hget, hdb', hij⟩
              · simp only [Option.some.injEq, Prod.mk.injEq] at hl
                obtain ⟨rfl, rfl, rfl⟩ := hl
                exact Or.inr ⟨d, by simp, hdb, le_refl i⟩
              · refine Or.inr ⟨d', ?_, hdb', by omega⟩
                have hidx : j - i = (j - (i + 1)) + 1 := by omega
                rw [hidx]
                simpa using hget
            · intro j1 b1 m1 h1
              simp only [Option.some.injEq, Prod.mk.injEq] at h1
              obtain ⟨-, -, rfl⟩ := h1
              exact le_of_lt (lt_of_le_of_lt hmds hlt)
            · intro d' hd' b1 hb1
              rcases List.mem_cons.mp hd' with rfl | hd''
              · rw [hdb] at hb1
                obtain rfl := Option.some.inj hb1
                exact hmds
              · exact hcand d' hd'' b1 hb1
        · rw [scanGo_cons_ge c d rest i j0 b b0 m0 hdb hlt]
          have hbest' : ∀ j b' m,
              (some (j0, b0, m0) : Option (Nat × BBox × ℚ))
                = some (j, b', m) → m = distSq c (bboxCenter b') := by
            intro j b' m h
            simp only [Option.some.injEq, Prod.mk.injEq] at h
            obtain ⟨-, rfl, rfl⟩ := h
            exact hm0
          obtain ⟨ihnone, ihsome⟩ := ih (i + 1) (some (j0, b0, m0)) hbest'
          constructor
          · intro h
            obtain ⟨h1, -⟩ := ihnone h
            cases h1
          · intro j b' m h
            obtain ⟨hm, hprov, hbestmono, hcand⟩ := ihsome j b' m h
            have hmm0 : m ≤ m0 := hbestmono j0 b0 m0 rfl
            refine ⟨hm, ?_, ?_, ?_⟩
            · rcases hprov with hl | ⟨d', hget, hdb', hij⟩
              · exact Or.inl hl
              · refine Or.inr ⟨d', ?_, hdb', by omega⟩
                have hidx : j - i = (j - (i + 1)) + 1 := by omega
                rw [hidx]
                simpa using hget
            · intro j1 b1 m1 h1
              simp only [Option.some.injEq, Prod.mk.injEq] at h1
              obtain ⟨-, -, rfl⟩ := h1
              exact hmm0
            · intro d' hd' b1 hb1
              rcases List.mem_cons.mp hd' with rfl | hd''
              · rw [hdb] at hb1
                obtain rfl := Option.some.inj hb1
                exact le_trans hmm0 (not_lt.mp hlt)
              · exact hcand d' hd'' b1 hb1

/-- A squared distance is nonnegative. -/
theorem distSq_nonneg (p q : ℚ × ℚ) : 0 ≤ distSq p q :=
  add_nonneg (mul_self_nonneg _) (mul_self_nonneg _)

/-- Bridge between the code's comparison `Math.sqrt(m) < t` and its rational
encoding: for any rational `m`, the real square root of `m` is below `t` iff
`t` is positive and `m < t * t`. -/
theorem sqrt_lt_bound_iff (m t : ℚ) :
    Real.sqrt (m : ℝ) < (t : ℝ) ↔ (0 < t ∧ m < t * t) := by
  constructor
  · intro h
    have ht : (0 : ℝ) < (t : ℝ) := lt_of_le_of_lt (Real.sqrt_nonneg _) h
    refine ⟨by exact_mod_cast ht, ?_⟩
    have h2 := (Real.sqrt_lt' ht).mp h
    rw [pow_two] at h2
    exact_mod_cast h2
  · rintro ⟨ht, hlt⟩
    have ht' : (0 : ℝ) < (t : ℝ) := by exact_mod_cast ht
    refine (Real.sqrt_lt' ht').mpr ?_
    rw [pow_two]
    exact_mod_cast hlt

/-- Monotonicity of the real square root along a rational inequality. -/
theorem sqrt_mono_cast {a b : ℚ} (h : a ≤ b) :
    Real.sqrt (a : ℝ) ≤ Real.sqrt (b : ℝ) :=
  Real.sqrt_le_sqrt (by exact_mod_cast h)

/-- C1: in one matching pass, one analysis result against a pool of
candidate detections attaches (via `matchResult`) only to a detection of the
pool that has a bounding box, whose center is at minimal Euclidean distance
from the result's box center among all candidates with a bounding box, and
only when that distance is strictly below `0.75` times that detection's box
width; when `matchResult` returns `none`, either no candidate has a bounding
box at all, or some minimal-distance candidate fails the threshold, and no
label is drawn for the result. -/
theorem C1_nearest_match (r : AnalysisResult) (pool : List Detection) :
    (∀ j b, matchResult r pool = some (j, b) →
      (∃ d, pool.get? j = some d ∧ d.boundingBox = some b) ∧
      (∀ d' ∈ pool, ∀ b', d'.boundingBox = some b' →
        Real.sqrt ((distSq (bboxCenter r.bbox) (bboxCenter b) : ℚ) : ℝ)
          ≤ Real.sqrt ((distSq (bboxCenter r.bbox) (bboxCenter b') : ℚ) : ℝ)) ∧
      Real.sqrt ((distSq (bboxCenter r.bbox) (bboxCenter b) : ℚ) : ℝ)
        < ((b.width * 0.75 : ℚ) : ℝ)) ∧
    (matchResult r pool = none →
      (∀ d ∈ pool, d.boundingBox = none) ∨
      ∃ b, (∃ d ∈ pool, d.boundingBox = some b) ∧
        (∀ d' ∈ pool, ∀ b', d'.boundingBox = some b' →
          Real.sqrt ((distSq (bboxCenter r.bbox) (bboxCenter b) : ℚ) : ℝ)
            ≤ Real.sqrt ((distSq (bboxCenter r.bbox) (bboxCenter b') : ℚ) : ℝ)) ∧
        ¬ Real.sqrt ((distSq (bboxCenter r.bbox) (bboxCenter b) : ℚ) : ℝ)
            < ((b.width * 0.75 : ℚ) : ℝ)) := by
  obtain ⟨hnone, hsome⟩ :=
    scanGo_spec (bboxCenter r.bbox) pool 0 none (by intro j b m h; cases h)
  constructor
  · intro j b hmr
    unfold matchResult at hmr
    split at hmr
    · cases hmr
    · rename_i j' b' m' heq
      split at hmr
      · rename_i hacc
        simp only [Option.some.injEq, Prod.mk.injEq] at hmr
        obtain ⟨rfl, rfl⟩ := hmr
        obtain ⟨hm, hprov, -, hcand⟩ := hsome j' b' m' heq
        rcases hprov with hl | ⟨d, hget, hdb, -⟩
        · cases hl
        · rw [Nat.sub_zero] at hget
          refine ⟨⟨d, hget, hdb⟩, ?_, ?_⟩
          · intro d' hd' b'' hb''
            exact sqrt_mono_cast (hm ▸ hcand d' hd' b'' hb'')
          · have hp := of_decide_eq_true hacc
            exact (sqrt_lt_bound_iff (distSq (bboxCenter r.bbox) (bboxCenter b'))
              (b'.width * 0.75)).mpr ⟨hp.1, hm ▸ hp.2⟩
      · cases hmr
  · intro hmr
    unfold matchResult at hmr
    split at hmr
    · rename_i heq
      exact Or.inl (hnone heq).2
    · rename_i j' b' m' heq
      split at hmr
      · cases hmr
      · rename_i hacc
        obtain ⟨hm, hprov, -, hcand⟩ := hsome j' b' m' heq
        rcases hprov with hl | ⟨d, hget, hdb, -⟩
        · cases hl
        · rw [Nat.sub_zero] at hget
          refine Or.inr ⟨b', ⟨d, List.get?_mem hget, hdb⟩, ?_, ?_⟩
          · intro d' hd' b'' hb''
            exact sqrt_mono_cast (hm ▸ hcand d' hd' b'' hb'')
          · intro hsqrt
            apply hacc
            have hp := (sqrt_lt_bound_iff (distSq (bboxCenter r.bbox) (bboxCenter b'))
              (b'.width * 0.75)).mp hsqrt
            exact decide_eq_true ⟨hp.1, hm ▸ hp.2⟩

/-- Witness for C1: the single-candidate pool whose box coincides with the
result's box is matched at index 0 (distance 0, threshold `7.5`). -/
theorem C1_nearest_match_w :
    (∃ d, ([⟨some ⟨0, 0, 10, 10⟩, []⟩] : List Detection).get? 0 = some d ∧
      d.boundingBox = some ⟨0, 0, 10, 10⟩) ∧
    (∀ d' ∈ ([⟨some ⟨0, 0, 10, 10⟩, []⟩] : List Detection), ∀ b',
      d'.boundingBox = some b' →
      Real.sqrt ((distSq (bboxCenter (⟨0, 0, 10, 10⟩ : BBox))
          (bboxCenter (⟨0, 0, 10, 10⟩ : BBox)) : ℚ) : ℝ)
        ≤ Real.sqrt ((distSq (bboxCenter (⟨0, 0, 10, 10⟩ : BBox))
          (bboxCenter b') : ℚ) : ℝ)) ∧
    Real.sqrt ((distSq (bboxCenter (⟨0, 0, 10, 10⟩ : BBox))
        (bboxCenter (⟨0, 0, 10, 10⟩ : BBox)) : ℚ) : ℝ)
      < (((⟨0, 0, 10, 10⟩ : BBox).width * 0.75 : ℚ) : ℝ) :=
  (C1_nearest_match ⟨⟨0, 0, 10, 10⟩, "Age: 30"⟩ [⟨some ⟨0, 0, 10, 10⟩, []⟩]).1
    0 ⟨0, 0, 10, 10⟩ (by decide)

/-- The label-attachment loop of `drawFaceDetections` (`src/App.tsx` lines
350-399) over one frame: each analysis result in order scans the pool of
unattached detections (here annotated with their original indices as ghost
identifiers), and an accepted best match is claimed — its label is drawn and
the detection is removed from the pool by `splice(bestMatchIndex, 1)`
(`List.eraseIdx`).  The returned list is the sequence of claimed original
indices, in result order. -/
def matchPass : List AnalysisResult → List (Nat × Detection) → List Nat
  | [], _ => []
  | r :: rs, pool =>
    match findBest (bboxCenter r.bbox) (pool.map Prod.snd) with
    | none => matchPass rs pool
    | some (j, b, m) =>
      if accepts b m then
        match pool.get? j with
        | some (idx, _) => idx :: matchPass rs (pool.eraseIdx j)
        | none => matchPass rs pool
      else matchPass rs pool

/-- Erasing an index commutes with projecting the ghost identifiers. -/
theorem map_fst_eraseIdx (l : List (Nat × Detection)) (j : Nat) :
    (l.eraseIdx j).map Prod.fst = (l.map Prod.fst).eraseIdx j := by
  induction l generalizing j with
  | nil => simp
  | cons x t iht =>
    cases j with
    | zero => simp
    | succ n => simp [List.eraseIdx_cons_succ, iht]

/-- In a duplicate-free list, the element at position `j` does not survive
erasing position `j`. -/
theorem not_mem_eraseIdx_self (l : List Nat) (j : Nat) (x : Nat)
    (hnd : l.Nodup) (hx : l.get? j = some x) : x ∉ l.eraseIdx j := by
  induction l generalizing j with
  | nil => cases hx
  | cons y t iht =>
    cases j with
    | zero =>
      obtain rfl := Option.some.inj hx
      simpa using (List.nodup_cons.mp hnd).1
    | succ n =>
      have hx' : t.get? n = some x := hx
      obtain ⟨hy, htnd⟩ := List.nodup_cons.mp hnd
      rw [List.eraseIdx_cons_succ]
      intro hmem
      rcases List.mem_cons.mp hmem with rfl | hmem'
      · exact hy (List.get?_mem hx')
      · exact iht n htnd hx' hmem'

/-- Invariant for `matchPass`: when the ghost identifiers of the pool are
duplicate-free, the claimed identifiers are duplicate-free and all come from
the pool. -/
theorem matchPass_aux (results : List AnalysisResult) :
    ∀ pool : List (Nat × Detection), (pool.map Prod.fst).Nodup →
      (matchPass results pool).Nodup ∧
        ∀ x ∈ matchPass results pool, x ∈ pool.map Prod.fst := by
  induction results with
  | nil => intro pool hnd; simp [matchPass]
  | cons r rs ih =>
    intro pool hnd
    show (matchPass (r :: rs) pool).Nodup ∧ _
    rw [matchPass]
    cases hfb : findBest (bboxCenter r.bbox) (pool.map Prod.snd) with
    | none => exact ih pool hnd
    | some jbm =>
      obtain ⟨j, b, m⟩ := jbm
      dsimp only
      by_cases hacc : accepts b m
      · rw [if_pos hacc]
        cases hget : pool.get? j with
        | none => exact ih pool hnd
        | some p =>
          obtain ⟨idx, d⟩ := p
          have hgid : (pool.map Prod.fst).get? j = some idx := by
            rw [List.get?_map, hget]
            rfl
          have hid : idx ∈ pool.map Prod.fst := List.get?_mem hgid
          have herase : (pool.eraseIdx j).map Prod.fst
              = (pool.map Prod.fst).eraseIdx j := map_fst_eraseIdx pool j
          have hnd' : ((pool.eraseIdx j).map Prod.fst).Nodup := by
            rw [herase]
            exact hnd.sublist (List.eraseIdx_sublist (pool.map Prod.fst) j)
          obtain ⟨h1, h2⟩ := ih (pool.eraseIdx j) hnd'
          constructor
          · refine List.nodup_cons.mpr ⟨?_, h1⟩
            intro hmem
            have : idx ∈ (pool.map Prod.fst).eraseIdx j := by
              rw [← herase]
              exact h2 idx hmem
            exact not_mem_eraseIdx_self (pool.map Prod.fst) j idx hnd hgid this
          · intro x hx
            rcases List.mem_cons.mp hx with rfl | hx'
            · exact hid
            · have : x ∈ (pool.map Prod.fst).eraseIdx j := by
                rw [← herase]
                exact h2 x hx'
              exact (List.eraseIdx_sublist (pool.map Prod.fst) j).subset this
      · rw [if_neg hacc]
        exact ih pool hnd

/-- C2: within one matching pass over one frame's detections, no two
analysis results attach to the same detection — the list of claimed
detection indices produced by the pass (over the detections annotated with
their positions) has no duplicates, because a claimed detection is spliced
out of the candidate pool before the next result is matched. -/
theorem C2_exclusive_claims (results : List AnalysisResult)
    (detections : List Detection) :
    (matchPass results detections.enum).Nodup :=
  (matchPass_aux results detections.enum
    (by rw [List.enum_map_fst]; exact List.nodup_range detections.length)).1

/-- The pieces of `App.tsx` state touched by `analyzeAllFaces`: the stored
result set, the in-flight guard ref `isAnalyzing`, the user-facing
`errorMessage` cell (never written by this function) and a ghost log of
`console.error` calls. -/
structure AnalysisState where
  personAnalysisResults : Option (List AnalysisResult)
  isAnalyzing : Bool
  errorMessage : String
  consoleErrors : List String
deriving DecidableEq

/-- `Promise.all` over already-settled outcomes: resolves with the list of
values when every entry resolved, and rejects with an error as soon as any
entry rejected. -/
def promiseAll {α : Type} : List (Except String α) → Except String (List α)
  | [] => Except.ok []
  | Except.ok a :: rest => (promiseAll rest).map (fun l => a :: l)
  | Except.error e :: _ => Except.error e

/-- If some entry is an error, `promiseAll` rejects. -/
theorem promiseAll_error {α : Type} (l : List (Except String α))
    (h : ∃ x ∈ l, ∃ e, x = Except.error e) :
    ∃ e, promiseAll l = Except.error e := by
  induction l with
  | nil => simp at h
  | cons x rest ih =>
    obtain ⟨y, hy, e, hye⟩ := h
    rcases List.mem_cons.mp hy with rfl | hy'
    · subst hye
      exact ⟨e, rfl⟩
    · cases x with
      | ok a =>
        obtain ⟨e', he'⟩ := ih ⟨y, hy', e, hye⟩
        refine ⟨e', ?_⟩
        show (promiseAll rest).map (fun l => a :: l) = Except.error e'
        rw [he']
        rfl
      | error e0 => exact ⟨e0, rfl⟩

/-- `analyzeAllFaces` of `src/App.tsx` (lines 176-243).  The guard returns
early when there are no detections, no video element, or a batch is already
in flight.  Otherwise the `isAnalyzing` flag is raised, one cloud request is
issued per detection (a detection without a bounding box maps to `null`;
`request` gives each request's settled outcome), and the batch is awaited
with `Promise.all`.  On success the filtered (non-null) results replace the
stored set; on a rejection the error is only logged with `console.error`.
The `finally` clause resets `isAnalyzing` in both cases. -/
def analyzeAllFaces (request : Detection → Except String String)
    (detections : List Detection) (videoPresent : Bool) (s : AnalysisState) :
    AnalysisState :=
  if detections = [] ∨ videoPresent = false ∨ s.isAnalyzing = true then s
  else
    let s1 := { s with isAnalyzing := true }
    let batch := promiseAll (detections.map (fun detection =>
      match detection.boundingBox with
      | none => Except.ok (none : Option AnalysisResult)
      | some bbox => (request detection).map (fun text => some ⟨bbox, text⟩)))
    match batch with
    | Except.ok results =>
      { s1 with
        personAnalysisResults := some (results.filterMap id),
        isAnalyzing := false }
    | Except.error e =>
      { s1 with consoleErrors := e :: s1.consoleErrors, isAnalyzing := false }

/-- C3: if any single per-face cloud request of a dispatched batch rejects,
the whole batch is aborted: the stored analysis-result set is left exactly
as it was, the error is only logged (the user-facing error message is
unchanged, one entry is prepended to the console log), and the in-flight
flag is `false` once the batch settles. -/
theorem C3_batch_abort (request : Detection → Except String String)
    (detections : List Detection) (s : AnalysisState)
    (hne : detections ≠ []) (hbusy : s.isAnalyzing = false)
    (hfail : ∃ d ∈ detections, ∃ b e, d.boundingBox = some b ∧
      request d = Except.error e) :
    (analyzeAllFaces request detections true s).personAnalysisResults
        = s.personAnalysisResults ∧
      (analyzeAllFaces request detections true s).isAnalyzing = false ∧
      (analyzeAllFaces request detections true s).errorMessage
        = s.errorMessage ∧
      ∃ e, (analyzeAllFaces request detections true s).consoleErrors
        = e :: s.consoleErrors := by
  have hguard : ¬ (detections = [] ∨ (true : Bool) = false ∨
      s.isAnalyzing = true) := by
    rintro (h | h | h)
    · exact hne h
    · cases h
    · rw [hbusy] at h
      cases h
  have herr : ∃ e, promiseAll (detections.map (fun detection =>
      match detection.boundingBox with
      | none => Except.ok (none : Option AnalysisResult)
      | some bbox => (request detection).map (fun text => some ⟨bbox, text⟩)))
        = Except.error e := by
    apply promiseAll_error
    obtain ⟨d, hd, b, e, hdb, hreq⟩ := hfail
    refine ⟨match d.boundingBox with
      | none => Except.ok (none : Option AnalysisResult)
      | some bbox => (request d).map (fun text => some ⟨bbox, text⟩),
      List.mem_map_of_mem _ hd, e, ?_⟩
    rw [hdb, hreq]
    rfl
  obtain ⟨e, he⟩ := herr
  unfold analyzeAllFaces
  rw [if_neg hguard]
  refine ⟨?_, ?_, ?_, e, ?_⟩ <;> simp only [he]

/-- Witness for C3: a single-face batch whose request rejects with
`"network"` leaves the previous result set and error message unchanged,
logs once, and resets the busy flag. -/
theorem C3_batch_abort_w :
    (analyzeAllFaces (fun _ => Except.error "network")
        [⟨some ⟨0, 0, 1, 1⟩, []⟩] true
        ⟨some [⟨⟨2, 2, 3, 3⟩, "Age: 40"⟩], false, "", []⟩).personAnalysisResults
        = (⟨some [⟨⟨2, 2, 3, 3⟩, "Age: 40"⟩], false, "", []⟩ :
            AnalysisState).personAnalysisResults ∧
      (analyzeAllFaces (fun _ => Except.error "network")
        [⟨some ⟨0, 0, 1, 1⟩, []⟩] true
        ⟨some [⟨⟨2, 2, 3, 3⟩, "Age: 40"⟩], false, "", []⟩).isAnalyzing = false ∧
      (analyzeAllFaces (fun _ => Except.error "network")
        [⟨some ⟨0, 0, 1, 1⟩, []⟩] true
        ⟨some [⟨⟨2, 2, 3, 3⟩, "Age: 40"⟩], false, "", []⟩).errorMessage
        = (⟨some [⟨⟨2, 2, 3, 3⟩, "Age: 40"⟩], false, "", []⟩ :
            AnalysisState).errorMessage ∧
      ∃ e, (analyzeAllFaces (fun _ => Except.error "network")
        [⟨some ⟨0, 0, 1, 1⟩, []⟩] true
        ⟨some [⟨⟨2, 2, 3, 3⟩, "Age: 40"⟩], false, "", []⟩).consoleErrors
        = e :: (⟨some [⟨⟨2, 2, 3, 3⟩, "Age: 40"⟩], false, "", []⟩ :
            AnalysisState).consoleErrors :=
  C3_batch_abort (fun _ => Except.error "network") [⟨some ⟨0, 0, 1, 1⟩, []⟩]
    ⟨some [⟨⟨2, 2, 3, 3⟩, "Age: 40"⟩], false, "", []⟩
    (by decide) rfl
    ⟨⟨some ⟨0, 0, 1, 1⟩, []⟩, by decide, ⟨0, 0, 1, 1⟩, "network", rfl, rfl⟩

/-- `BoundingBox2D` from `src/atoms.tsx`. -/
structure BoundingBox2D where
  x : ℚ
  y : ℚ
  width : ℚ
  height : ℚ
  label : String
deriving DecidableEq

/-- `BoundingBox3D` from `src/atoms.tsx`. -/
structure BoundingBox3D where
  center : List ℚ
  size : List ℚ
  rpy : List ℚ
  label : String
deriving DecidableEq

/-- `BoundingBoxMask` from `src/atoms.tsx`. -/
structure BoundingBoxMask where
  x : ℚ
  y : ℚ
  width : ℚ
  height : ℚ
  label : String
  imageData : String
deriving DecidableEq

/-- `Point` from `src/atoms.tsx`. -/
structure PointAnn where
  point : ℚ × ℚ
  label : String
deriving DecidableEq

/-- `Line` from `src/atoms.tsx`: a polyline plus a color string. -/
abbrev LineAnn := List (ℚ × ℚ) × String

/-- One track of a `MediaStream`, with its `stop()` state. -/
structure Track where
  id : Nat
  stopped : Bool
deriving DecidableEq

/-- The reactive cells declared in `src/atoms.tsx` (lines 59-80), one field
per atom.  A `MediaStream` is its list of tracks; the video ref cell is
modelled by an optional element identifier. -/
structure AtomState where
  imageSrc : Option String
  isUploadedImage : Bool
  boundingBoxes2D : List BoundingBox2D
  boundingBoxes3D : List BoundingBox3D
  boundingBoxMasks : List BoundingBoxMask
  shareStream : Option (List Track)
  detectType : String
  videoRef : Option Nat
  fov : ℚ
  imageSent : Bool
  points : List PointAnn
  revealOnHoverMode : Bool
  hoverEntered : Bool
  hoveredBox : Option Nat
  drawMode : Bool
  lines : List LineAnn
  activeColor : String
  bumpSession : Nat
  isLoading : Bool
  temperature : ℚ
deriving DecidableEq

/-- The initial values of the atoms of `src/atoms.tsx` (lines 59-80). -/
def atomDefaults : AtomState where
  imageSrc := some "assets/1.png"
  isUploadedImage := false
  boundingBoxes2D := []
  boundingBoxes3D := []
  boundingBoxMasks := []
  shareStream := none
  detectType := "2D bounding boxes"
  videoRef := none
  fov := 90
  imageSent := false
  points := []
  revealOnHoverMode := false
  hoverEntered := false
  hoveredBox := none
  drawMode := false
  lines := []
  activeColor := "#3B68FF"
  bumpSession := 0
  isLoading := false
  temperature := 0.25

/-- The closure returned by `useResetState` (`src/hooks.tsx` lines 34-61):
null the image source, empty the five annotation arrays, clear the draw
mode, stop every track of the active stream and set the stream cell to
null, and clear the uploaded/sent flags.  The second component is the list
of tracks of the previous stream after `track.stop()` was called on each. -/
def useResetState (s : AtomState) : AtomState × List Track :=
  ({ s with
      imageSrc := none
      boundingBoxes2D := []
      boundingBoxes3D := []
      boundingBoxMasks := []
      points := []
      lines := []
      drawMode := false
      shareStream := none
      isUploadedImage := false
      imageSent := false },
    (s.shareStream.getD []).map (fun t => { t with stopped := true }))

/-- C7 counterexample: the session reset does not clear every reactive cell
back to one fixed blank session — a state whose temperature cell was moved
to `0.9` resets to a state still carrying `0.9`, different from the reset of
the default state, because `useResetState` never writes the temperature,
detect-type, FOV, hover, color, bump, or loading cells. -/
theorem C7_cex :
    (useResetState { atomDefaults with temperature := 0.9 }).1
        ≠ (useResetState atomDefaults).1 ∧
      (useResetState { atomDefaults with temperature := 0.9 }).1.temperature
        = 0.9 ∧
      atomDefaults.temperature = 0.25 := by
  refine ⟨?_, rfl, rfl⟩
  intro h
  have : (useResetState { atomDefaults with temperature := 0.9 }).1.temperature
      = (useResetState atomDefaults).1.temperature := by rw [h]
  revert this
  decide

/-- C7 (amended): running the session reset empties every annotation array
(2D boxes, 3D boxes, masks, points, lines), nulls the image source, clears
the draw-mode, uploaded-image and image-sent flags, stops every track of the
active camera stream and sets the stream cell to null — while the remaining
reactive cells (detect type, video ref, FOV, hover state, active color, bump
counter, loading flag, temperature) keep their previous values rather than
returning to a blank session. -/
theorem C7_reset (s : AtomState) :
    (useResetState s).1.boundingBoxes2D = [] ∧
      (useResetState s).1.boundingBoxes3D = [] ∧
      (useResetState s).1.boundingBoxMasks = [] ∧
      (useResetState s).1.points = [] ∧
      (useResetState s).1.lines = [] ∧
      (useResetState s).1.imageSrc = none ∧
      (useResetState s).1.drawMode = false ∧
      (useResetState s).1.isUploadedImage = false ∧
      (useResetState s).1.imageSent = false ∧
      (useResetState s).1.shareStream = none ∧
      (∀ t ∈ (useResetState s).2, t.stopped = true) ∧
      (useResetState s).2.map Track.id
        = (s.shareStream.getD []).map Track.id ∧
      (useResetState s).1.detectType = s.detectType ∧
      (useResetState s).1.videoRef = s.videoRef ∧
      (useResetState s).1.fov = s.fov ∧
      (useResetState s).1.revealOnHoverMode = s.revealOnHoverMode ∧
      (useResetState s).1.hoverEntered = s.hoverEntered ∧
      (useResetState s).1.hoveredBox = s.hoveredBox ∧
      (useResetState s).1.activeColor = s.activeColor ∧
      (useResetState s).1.bumpSession = s.bumpSession ∧
      (useResetState s).1.isLoading = s.isLoading ∧
      (useResetState s).1.temperature = s.temperature := by
  refine ⟨rfl, rfl, rfl, rfl, rfl, rfl, rfl, rfl, rfl, rfl, ?_, ?_,
    rfl, rfl, rfl, rfl, rfl, rfl, rfl, rfl, rfl, rfl⟩
  · intro t ht
    simp only [useResetState, List.mem_map] at ht
    obtain ⟨u, -, rfl⟩ := ht
    rfl
  · show ((s.shareStream.getD []).map
        (fun t => { t with stopped := true })).map Track.id
      = (s.shareStream.getD []).map Track.id
    rw [List.map_map]
    rfl

/-- Witness for C7 (amended) at a concrete session with a two-track stream,
one 2D box and a moved temperature cell. -/
theorem C7_reset_w :
    (useResetState { atomDefaults with
        shareStream := some [⟨1, false⟩, ⟨2, false⟩],
        boundingBoxes2D := [⟨1, 2, 3, 4, "cat"⟩],
        temperature := 0.9 }).1.boundingBoxes2D = [] ∧
      (useResetState { atomDefaults with
        shareStream := some [⟨1, false⟩, ⟨2, false⟩],
        boundingBoxes2D := [⟨1, 2, 3, 4, "cat"⟩],
        temperature := 0.9 }).1.boundingBoxes3D = [] ∧
      (useResetState { atomDefaults with
        shareStream := some [⟨1, false⟩, ⟨2, false⟩],
        boundingBoxes2D := [⟨1, 2, 3, 4, "cat"⟩],
        temperature := 0.9 }).1.boundingBoxMasks = [] ∧
      (useResetState { atomDefaults with
        shareStream := some [⟨1, false⟩, ⟨2, false⟩],
        boundingBoxes2D := [⟨1, 2, 3, 4, "cat"⟩],
        temperature := 0.9 }).1.points = [] ∧
      (useResetState { atomDefaults with
        shareStream := some [⟨1, false⟩, ⟨2, false⟩],
        boundingBoxes2D := [⟨1, 2, 3, 4, "cat"⟩],
        temperature := 0.9 }).1.lines = [] ∧
      (useResetState { atomDefaults with
        shareStream := some [⟨1, false⟩, ⟨2, false⟩],
        boundingBoxes2D := [⟨1, 2, 3, 4, "cat"⟩],
        temperature := 0.9 }).1.imageSrc = none ∧
      (useResetState { atomDefaults with
        shareStream := some [⟨1, false⟩, ⟨2, false⟩],
        boundingBoxes2D := [⟨1, 2, 3, 4, "cat"⟩],
        temperature := 0.9 }).1.drawMode = false ∧
      (useResetState { atomDefaults with
        shareStream := some [⟨1, false⟩, ⟨2, false⟩],
        boundingBoxes2D := [⟨1, 2, 3, 4, "cat"⟩],
        temperature := 0.9 }).1.isUploadedImage = false ∧
      (useResetState { atomDefaults with
        shareStream := some [⟨1, false⟩, ⟨2, false⟩],
        boundingBoxes2D := [⟨1, 2, 3, 4, "cat"⟩],
        temperature := 0.9 }).1.imageSent = false ∧
      (useResetState { atomDefaults with
        shareStream := some [⟨1, false⟩, ⟨2, false⟩],
        boundingBoxes2D := [⟨1, 2, 3, 4, "cat"⟩],
        temperature := 0.9 }).1.shareStream = none ∧
      (∀ t ∈ (useResetState { atomDefaults with
        shareStream := some [⟨1, false⟩, ⟨2, false⟩],
        boundingBoxes2D := [⟨1, 2, 3, 4, "cat"⟩],
        temperature := 0.9 }).2, t.stopped = true) ∧
      (useResetState { atomDefaults with
        shareStream := some [⟨1, false⟩, ⟨2, false⟩],
        boundingBoxes2D := [⟨1, 2, 3, 4, "cat"⟩],
        temperature := 0.9 }).2.map Track.id
        = (({ atomDefaults with
        shareStream := some [⟨1, false⟩, ⟨2, false⟩],
        boundingBoxes2D := [⟨1, 2, 3, 4, "cat"⟩],
        temperature := 0.9 } : AtomState).shareStream.getD []).map Track.id ∧
      (useResetState { atomDefaults with
        shareStream := some [⟨1, false⟩, ⟨2, false⟩],
        boundingBoxes2D := [⟨1, 2, 3, 4, "cat"⟩],
        temperature := 0.9 }).1.detectType = ({ atomDefaults with
        shareStream := some [⟨1, false⟩, ⟨2, false⟩],
        boundingBoxes2D := [⟨1, 2, 3, 4, "cat"⟩],
        temperature := 0.9 } : AtomState).detectType ∧
      (useResetState { atomDefaults with
        shareStream := some [⟨1, false⟩, ⟨2, false⟩],
        boundingBoxes2D := [⟨1, 2, 3, 4, "cat"⟩],
        temperature := 0.9 }).1.videoRef = ({ atomDefaults with
        shareStream := some [⟨1, false⟩, ⟨2, false⟩],
        boundingBoxes2D := [⟨1, 2, 3, 4, "cat"⟩],
        temperature := 0.9 } : AtomState).videoRef ∧
      (useResetState { atomDefaults with
        shareStream := some [⟨1, false⟩, ⟨2, false⟩],
        boundingBoxes2D := [⟨1, 2, 3, 4, "cat"⟩],
        temperature := 0.9 }).1.fov = ({ atomDefaults with
        shareStream := some [⟨1, false⟩, ⟨2, false⟩],
        boundingBoxes2D := [⟨1, 2, 3, 4, "cat"⟩],
        temperature := 0.9 } : AtomState).fov ∧
      (useResetState { atomDefaults with
        shareStream := some [⟨1, false⟩, ⟨2, false⟩],
        boundingBoxes2D := [⟨1, 2, 3, 4, "cat"⟩],
        temperature := 0.9 }).1.revealOnHoverMode = ({ atomDefaults with
        shareStream := some [⟨1, false⟩, ⟨2, false⟩],
        boundingBoxes2D := [⟨1, 2, 3, 4, "cat"⟩],
        temperature := 0.9 } : AtomState).revealOnHoverMode ∧
      (useResetState { atomDefaults with
        shareStream := some [⟨1, false⟩, ⟨2, false⟩],
        boundingBoxes2D := [⟨1, 2, 3, 4, "cat"⟩],
        temperature := 0.9 }).1.hoverEntered = ({ atomDefaults with
        shareStream := some [⟨1, false⟩, ⟨2, false⟩],
        boundingBoxes2D := [⟨1, 2, 3, 4, "cat"⟩],
        temperature := 0.9 } : AtomState).hoverEntered ∧
      (useResetState { atomDefaults with
        shareStream := some [⟨1, false⟩, ⟨2, false⟩],
        boundingBoxes2D := [⟨1, 2, 3, 4, "cat"⟩],
        temperature := 0.9 }).1.hoveredBox = ({ atomDefaults with
        shareStream := some [⟨1, false⟩, ⟨2, false⟩],
        boundingBoxes2D := [⟨1, 2, 3, 4, "cat"⟩],
        temperature := 0.9 } : AtomState).hoveredBox ∧
      (useResetState { atomDefaults with
        shareStream := some [⟨1, false⟩, ⟨2, false⟩],
        boundingBoxes2D := [⟨1, 2, 3, 4, "cat"⟩],
        temperature := 0.9 }).1.activeColor = ({ atomDefaults with
        shareStream := some [⟨1, false⟩, ⟨2, false⟩],
        boundingBoxes2D := [⟨1, 2, 3, 4, "cat"⟩],
        temperature := 0.9 } : AtomState).activeColor ∧
      (useResetState { atomDefaults with
        shareStream := some [⟨1, false⟩, ⟨2, false⟩],
        boundingBoxes2D := [⟨1, 2, 3, 4, "cat"⟩],
        temperature := 0.9 }).1.bumpSession = ({ atomDefaults with
        shareStream := some [⟨1, false⟩, ⟨2, false⟩],
        boundingBoxes2D := [⟨1, 2, 3, 4, "cat"⟩],
        temperature := 0.9 } : AtomState).bumpSession ∧
      (useResetState { atomDefaults with
        shareStream := some [⟨1, false⟩, ⟨2, false⟩],
        boundingBoxes2D := [⟨1, 2, 3, 4, "cat"⟩],
        temperature := 0.9 }).1.isLoading = ({ atomDefaults with
        shareStream := some [⟨1, false⟩, ⟨2, false⟩],
        boundingBoxes2D := [⟨1, 2, 3, 4, "cat"⟩],
        temperature := 0.9 } : AtomState).isLoading ∧
      (useResetState { atomDefaults with
        shareStream := some [⟨1, false⟩, ⟨2, false⟩],
        boundingBoxes2D := [⟨1, 2, 3, 4, "cat"⟩],
        temperature := 0.9 }).1.temperature = ({ atomDefaults with
        shareStream := some [⟨1, false⟩, ⟨2, false⟩],
        boundingBoxes2D := [⟨1, 2, 3, 4, "cat"⟩],
        temperature := 0.9 } : AtomState).temperature :=
  C7_reset { atomDefaults with
    shareStream := some [⟨1, false⟩, ⟨2, false⟩],
    boundingBoxes2D := [⟨1, 2, 3, 4, "cat"⟩],
    temperature := 0.9 }

/-- The four model handle refs of `src/unnamed/part_000`, each holding a
native handle identifier when loaded and `null` otherwise. -/
structure Models where
  objectDetector : Option Nat
  faceDetector : Option Nat
  handLandmarker : Option Nat
  poseLandmarker : Option Nat
deriving DecidableEq

/-- The identifiers of the currently held (non-null) model handles. -/
def heldHandles (m : Models) : List Nat :=
  m.objectDetector.toList ++ m.faceDetector.toList ++
    m.handLandmarker.toList ++ m.poseLandmarker.toList

/-- The number of loaded models. -/
def activeCount (m : Models) : Nat := (heldHandles m).length

/-- `switchModel` of `src/unnamed/part_000` (lines 91-165): `close()` is
called on every currently held handle and all four refs are set to `null`;
then the model for the requested task is constructed (`newId` is the fresh
handle, `ok` is whether `createFromOptions` succeeded — on an exception the
catch leaves every ref `null`).  The first component is the new ref state,
the second the list of handles that were closed. -/
def switchModel (task : VisionTask) (newId : Nat) (ok : Bool) (m : Models) :
    Models × List Nat :=
  let closed := heldHandles m
  let m0 : Models := ⟨none, none, none, none⟩
  let m1 :=
    if ok then
      match task with
      | VisionTask.object => { m0 with objectDetector := some newId }
      | VisionTask.face => { m0 with faceDetector := some newId }
      | VisionTask.hands => { m0 with handLandmarker := some newId }
      | VisionTask.pose => { m0 with poseLandmarker := some newId }
    else m0
  (m1, closed)

/-- The model handle refs of `src/App.tsx`.  The hand and pose refs exist
("kept for potential future use") but no code path ever assigns them. -/
structure AppModels where
  objectDetector : Option Nat
  faceDetector : Option Nat
  handLandmarker : Option Nat
  poseLandmarker : Option Nat
deriving DecidableEq

/-- The number of loaded models in the `App.tsx` ref state. -/
def appActiveCount (m : AppModels) : Nat :=
  (m.objectDetector.toList ++ m.faceDetector.toList ++
    m.handLandmarker.toList ++ m.poseLandmarker.toList).length

/-- `switchModel` of `src/App.tsx` (lines 111-153): only the object and face
refs are closed and nulled (the hand and pose refs are never non-null in
this file), then the model of the requested mode is constructed. -/
def switchModelApp (task : DetectionMode) (newId : Nat) (ok : Bool)
    (m : AppModels) : AppModels × List Nat :=
  let closed := m.objectDetector.toList ++ m.faceDetector.toList
  let m0 := { m with objectDetector := (none : Option Nat),
                     faceDetector := (none : Option Nat) }
  let m1 :=
    if ok then
      match task with
      | DetectionMode.object => { m0 with objectDetector := some newId }
      | DetectionMode.personAnalysis => { m0 with faceDetector := some newId }
    else m0
  (m1, closed)

/-- C8: every model switch first closes all currently held handles (each
held handle identifier appears among the closed ones) and afterwards exactly
one model is loaded on success and none on failure — so at most one model is
ever active after a switch.  The same holds for the two-mode variant of
`App.tsx` on its reachable states (its hand and pose refs are never
assigned, hence `none`). -/
theorem C8_single_model :
    (∀ (task : VisionTask) (newId : Nat) (ok : Bool) (m : Models),
      (∀ h ∈ heldHandles m, h ∈ (switchModel task newId ok m).2) ∧
      activeCount (switchModel task newId ok m).1 = (if ok then 1 else 0) ∧
      activeCount (switchModel task newId ok m).1 ≤ 1) ∧
    (∀ (task : DetectionMode) (newId : Nat) (ok : Bool) (m : AppModels),
      m.handLandmarker = none → m.poseLandmarker = none →
      appActiveCount (switchModelApp task newId ok m).1
        = (if ok then 1 else 0)) := by
  constructor
  · intro task newId ok m
    refine ⟨fun h hh => hh, ?_, ?_⟩
    · cases ok <;> cases task <;> rfl
    · cases ok <;> cases task <;> simp [switchModel, activeCount, heldHandles]
  · intro task newId ok m hhand hpose
    cases ok <;> cases task <;>
      simp [switchModelApp, appActiveCount, hhand, hpose]

/-- Witness for C8: switching the `App.tsx` refs from a loaded face model to
the object model closes the face handle and leaves exactly one loaded
model. -/
theorem C8_single_model_w :
    appActiveCount (switchModelApp DetectionMode.object 7 true
      ⟨none, some 3, none, none⟩).1 = (if true then 1 else 0) :=
  C8_single_model.2 DetectionMode.object 7 true ⟨none, some 3, none, none⟩
    rfl rfl
